import Mathlib

/-!
Verification of the streaming-and-control bridge of the remote-browser agent.

The definitions below are a shallow embedding of the Go source:
* the frame throttle and broadcast path of `Server.onFrame` (internal/api),
* the connection registry kept in `Server.clients`,
* the outbound frame message (`FrameMessage` JSON with base64 payload),
* the input translation of `Server.handleInput` and `Chrome.MouseClick`,
* the WebSocket read loop of `Server.handleWebSocket`,
* the shutdown path `Server.Close` / `Chrome.Close`,
* the per-method locking discipline of the `Chrome` session wrapper.

Time is modelled in milliseconds as integers; Go `time.Time`'s zero value is
the integer 0 and `time.Time.Sub` is integer subtraction.  Byte payloads are
lists of naturals; websocket connections are identified by naturals (the Go
code keys its client map by the connection pointer itself).
-/

/-- `minFrameInterval = 40 * time.Millisecond` (max ~25 fps). -/
def minFrameInterval : Int := 40

/-- The throttle state: `Server.lastFrame`, a `time.Time` whose zero value
(the Go zero time) models server construction, where the field is never
initialised and hence holds the zero time. -/
structure ThrottleState where
  lastFrame : Int
  deriving Repr, DecidableEq

/-- The freshly constructed server: `lastFrame` is the Go zero `time.Time`. -/
def initialThrottle : ThrottleState := ⟨0⟩

/-- One call of the throttle section of `Server.onFrame` at time `now`:
`if now.Sub(s.lastFrame) < minFrameInterval { return }` drops the frame and
leaves the state unchanged; otherwise `s.lastFrame = now` and the frame is
forwarded.  Returns `(forwarded, new state)`. -/
def throttleStep (st : ThrottleState) (now : Int) : Bool × ThrottleState :=
  if now - st.lastFrame < minFrameInterval then (false, st)
  else (true, ⟨now⟩)

/-- Run the throttle over a sequence of raw-frame delivery times, collecting
the delivery times of the forwarded frames. -/
def runThrottle (st : ThrottleState) : List Int → List Int
  | [] => []
  | t :: ts =>
    match throttleStep st t with
    | (false, st') => runThrottle st' ts
    | (true, st') => t :: runThrottle st' ts

/-!
## Connection registry and broadcast (`Server.clients`, `Server.onFrame` loop)

The Go registry is `map[*websocket.Conn]bool`; connections are modelled by
naturals and the registry by a `Finset Nat`.  `Server.onFrame` snapshots the
membership under `mu.RLock`, then for each connection in the snapshot calls
`c.WriteMessage`; on error it deletes exactly that connection from the map
(under `mu.Lock`) and closes it, and the loop continues with the next
connection.  Whether a given connection's send fails is an environment
choice, modelled by the predicate `fails`.
-/

/-- The observable outcome of one run of the broadcast loop. -/
structure BroadcastResult where
  attempted : List Nat
  received : List Nat
  removed : List Nat
  closed : List Nat
  registry : Finset Nat
  deriving DecidableEq

/-- The `for _, c := range clients` send loop of `Server.onFrame`:
a failed `WriteMessage` deletes that connection from the registry and closes
it; the loop never stops early. -/
def broadcastLoop (fails : Nat → Bool) : List Nat → Finset Nat → BroadcastResult
  | [], reg => ⟨[], [], [], [], reg⟩
  | c :: cs, reg =>
    if fails c then
      let r := broadcastLoop fails cs (reg.erase c)
      ⟨c :: r.attempted, r.received, c :: r.removed, c :: r.closed, r.registry⟩
    else
      let r := broadcastLoop fails cs reg
      ⟨c :: r.attempted, c :: r.received, r.removed, r.closed, r.registry⟩

/-- The snapshot taken under `mu.RLock`: the registry's members as a list
(Go map iteration order is arbitrary; the canonical sorted order stands in
for it, and the theorems depend only on membership). -/
def registrySnapshot (reg : Finset Nat) : List Nat := reg.sort (· ≤ ·)

/-- The whole broadcast part of `Server.onFrame`: snapshot, then send loop. -/
def broadcast (fails : Nat → Bool) (reg : Finset Nat) : BroadcastResult :=
  broadcastLoop fails (registrySnapshot reg) reg

/-!
## Frame message encoding (`FrameMessage`, base64, `json.Marshal`)
-/

/-- The standard base64 alphabet used by Go's `base64.StdEncoding`. -/
def base64Chars : List Char :=
  "ABCDEFGHIJKLMNOPQRSTUVWXYZabcdefghijklmnopqrstuvwxyz0123456789+/".toList

/-- Character of the alphabet at a 6-bit index. -/
def b64Char (n : Nat) : Char := base64Chars.getD n 'A'

/-- Go `base64.StdEncoding.EncodeToString` on a byte slice: 3-byte groups
become 4 alphabet characters; a trailing group of 1 or 2 bytes is padded
with `=`. -/
def base64Encode : List Nat → String
  | [] => ""
  | [b0] =>
    String.mk [b64Char (b0 / 4), b64Char (b0 % 4 * 16), '=', '=']
  | [b0, b1] =>
    String.mk [b64Char (b0 / 4), b64Char (b0 % 4 * 16 + b1 / 16), b64Char (b1 % 16 * 4), '=']
  | b0 :: b1 :: b2 :: rest =>
    String.mk [b64Char (b0 / 4), b64Char (b0 % 4 * 16 + b1 / 16),
               b64Char (b1 % 16 * 4 + b2 / 64), b64Char (b2 % 64)] ++ base64Encode rest

/-- `json.Marshal(FrameMessage{Type: "frame", Data: base64(data)})`: Go
serialises the struct's fields in declaration order, and the base64 alphabet
needs no JSON escaping. -/
def frameMessageJSON (data : List Nat) : String :=
  "\x7b\"type\":\"frame\",\"data\":\"" ++ base64Encode data ++ "\"\x7d"

/-- The encoding-and-send observables of one `Server.onFrame` call past the
throttle: `encodeCount` counts executions of the `json.Marshal` /
`EncodeToString` block, `sends` the `(connection, message)` pairs written.
The Go code returns before encoding when the snapshot is empty, and
marshals exactly once otherwise, writing the same `msgBytes` to every
connection of the snapshot. -/
structure EncodeTrace where
  encodeCount : Nat
  sends : List (Nat × String)
  deriving Repr, DecidableEq

/-- The encoding/sending tail of `Server.onFrame` (send failures aside). -/
def onFrameEncode (data : List Nat) (clients : List Nat) : EncodeTrace :=
  if clients.length = 0 then ⟨0, []⟩
  else
    let msg := frameMessageJSON data
    ⟨1, clients.map fun c => (c, msg)⟩

/-!
## Input translation (`InputEvent`, `Server.handleInput`, `Chrome.MouseClick`)

Coordinates and wheel deltas are Go `float64` values that are only carried
through, never computed with; they are modelled as integers.
-/

/-- The wire-level `InputEvent` struct of the api package. -/
structure InputEvent where
  type : String
  x : Int
  y : Int
  button : Int
  key : String
  text : String
  deltaX : Int
  deltaY : Int
  deriving Repr, DecidableEq

/-- `input.MouseButton` values used by `Chrome.MouseClick`. -/
inductive MouseButton where
  | left
  | middle
  | right
  deriving Repr, DecidableEq

/-- Commands issued against the chromedp session by the bridge. -/
inductive SessionCommand where
  | mouseMove (x y : Int)
  | mousePress (x y : Int) (btn : MouseButton) (clickCount : Nat)
  | mouseRelease (x y : Int) (btn : MouseButton) (clickCount : Nat)
  | keyEvent (key : String)
  | insertText (text : String)
  | wheel (x y dx dy : Int)
  | startScreencast
  | stopScreencast
  | navigate (url : String)
  | capture
  | frameAck
  deriving Repr, DecidableEq

/-- The button-name computation in the `"mousedown", "click"` case of
`Server.handleInput`: `button := "left"; if == 2 right; else if == 1 middle`. -/
def buttonName (code : Int) : String :=
  if code = 2 then "right"
  else if code = 1 then "middle"
  else "left"

/-- The `switch button` at the top of `Chrome.MouseClick`. -/
def chromeButton (button : String) : MouseButton :=
  if button = "right" then .right
  else if button = "middle" then .middle
  else .left

/-- The body of `Chrome.MouseClick`: dispatch `MousePressed` then
`MouseReleased` at `(x, y)` with the resolved button, click count 1. -/
def mouseClickCommands (x y : Int) (button : String) : List SessionCommand :=
  let btn := chromeButton button
  [.mousePress x y btn 1, .mouseRelease x y btn 1]

/-- `Server.handleInput`: the `switch event.Type` dispatch.  The default case
of the Go switch does nothing (no command, no error). -/
def handleInput (e : InputEvent) : List SessionCommand :=
  if e.type = "mousemove" then [.mouseMove e.x e.y]
  else if e.type = "mousedown" ∨ e.type = "click" then
    mouseClickCommands e.x e.y (buttonName e.button)
  else if e.type = "keydown" then [.keyEvent e.key]
  else if e.type = "text" then [.insertText e.text]
  else if e.type = "wheel" then [.wheel e.x e.y e.deltaX e.deltaY]
  else []

/-- The event tags recognised by the `switch` in `Server.handleInput`. -/
def recognisedTags : List String :=
  ["mousemove", "mousedown", "click", "keydown", "text", "wheel"]

/-!
## The WebSocket read loop (`Server.handleWebSocket`)

Each iteration reads one message.  A read error breaks the loop (and the
deferred detach runs); a `json.Unmarshal` failure `continue`s; otherwise the
parsed event goes to `handleInput`.
-/

/-- One inbound item as the read loop sees it. -/
inductive InMsg where
  | readError
  | malformed
  | parsed (e : InputEvent)
  deriving Repr, DecidableEq

/-- One loop iteration: the session commands it issues and whether the loop
continues to the next message. -/
def loopStep (m : InMsg) : List SessionCommand × Bool :=
  match m with
  | .readError => ([], false)
  | .malformed => ([], true)
  | .parsed e => (handleInput e, true)

/-- All session commands issued by the read loop over a message sequence
(the loop stops at the first read error). -/
def runLoop : List InMsg → List SessionCommand
  | [] => []
  | m :: ms =>
    match loopStep m with
    | (cs, false) => cs
    | (cs, true) => cs ++ runLoop ms

/-- Whether the loop breaks before exhausting the sequence (the only way the
Go loop exits, triggering the deferred detach-and-close). -/
def loopBreaks : List InMsg → Bool
  | [] => false
  | m :: ms => if (loopStep m).2 then loopBreaks ms else true

/-!
## Bridge controller state (`Server` registration, stream start/stop, close)

`screencasting` models whether `page.StartScreencast` has been issued and not
stopped — the spec's Streaming State (Active/Stopped).  The Go `Server` holds
no such field; the flag only records the effect of the start/stop commands on
the session.
-/

/-- The parts of `Server`/`Chrome` state the lifecycle operations touch. -/
structure ServerState where
  clients : Finset Nat
  screencasting : Bool
  deriving DecidableEq

/-- The registration step of `Server.handleWebSocket`: `s.clients[conn] = true`
under `mu.Lock`.  No other statement runs between the upgrade and the read
loop; in particular no call into the chrome session is made.  Returns the new
state and the session commands issued. -/
def attachViewer (st : ServerState) (conn : Nat) : ServerState × List SessionCommand :=
  ({ st with clients := insert conn st.clients }, [])

/-- The deferred block of `Server.handleWebSocket`: `delete(s.clients, conn)`
and `conn.Close()`.  No session command is issued. -/
def detachViewer (st : ServerState) (conn : Nat) : ServerState × List SessionCommand :=
  ({ st with clients := st.clients.erase conn }, [])

/-- The `/start-stream` handler: `chrome.StartScreencast`, which issues
`page.StartScreencast` to the session unconditionally. -/
def startStreamOp (st : ServerState) : ServerState × List SessionCommand :=
  ({ st with screencasting := true }, [.startScreencast])

/-- The `/stop-stream` handler: `chrome.StopScreencast`. -/
def stopStreamOp (st : ServerState) : ServerState × List SessionCommand :=
  ({ st with screencasting := false }, [.stopScreencast])

/-!
## Shutdown (`Server.Close`, `Chrome.Close`)

`Server.Close` closes every connection in the client map (without clearing
the map) and then calls `Chrome.Close`, which invokes the two stored
`context.CancelFunc`s and returns `nil`.  Go guarantees that after the first
call a `CancelFunc` does nothing, so the browser session is torn down at most
once; closing an already-closed websocket connection releases nothing
further.  Both functions always return a `nil` error.
-/

/-- Resource-level shutdown state: the client map, the set of connections
whose transport has been closed, and how many times the session teardown
(the cancel pair) has actually fired. -/
structure CloseState where
  clients : Finset Nat
  closedConns : Finset Nat
  sessionReleased : Bool
  sessionReleaseCount : Nat
  deriving DecidableEq

/-- `Chrome.Close`: `c.cancel(); c.allocCancel(); return nil`.  A
`context.CancelFunc` releases its resources on the first call and does
nothing afterwards. -/
def chromeClose (st : CloseState) : CloseState × Option String :=
  if st.sessionReleased then (st, none)
  else ({ st with sessionReleased := true,
                  sessionReleaseCount := st.sessionReleaseCount + 1 }, none)

/-- `Server.Close`: close every client connection (closing a closed
connection releases nothing new), then `chrome.Close()` (the `chrome` field
is set at construction and never nil). -/
def serverClose (st : CloseState) : CloseState × Option String :=
  chromeClose { st with closedConns := st.closedConns ∪ st.clients }

/-- `serverClose` iterated `n` times, keeping only the final state. -/
def serverCloseIter : Nat → CloseState → CloseState
  | 0, st => st
  | n + 1, st => serverCloseIter n (serverClose st).1

/-!
## Session locking discipline (`Chrome` methods, part_002)

Each site in the chrome package that issues a command to the chromedp
session, and whether the Go source wraps that site in
`c.mu.Lock() / defer c.mu.Unlock()`.
-/

/-- The command-issuing sites of the `chrome` package. -/
inductive SessionSite where
  | navigate
  | capture
  | mouseMove
  | mouseClick
  | keyPress
  | typeText
  | scroll
  | startScreencast
  | stopScreencast
  | frameAck
  deriving Repr, DecidableEq

/-- Whether the Go method body holds `c.mu` while running its session
command.  Every exported method takes the lock; the screencast-frame
acknowledgement goroutine spawned inside the `ListenTarget` callback of
`Chrome.StartScreencast` calls `chromedp.Run` without touching `c.mu`. -/
def holdsSessionMutex : SessionSite → Bool
  | .navigate => true
  | .capture => true
  | .mouseMove => true
  | .mouseClick => true
  | .keyPress => true
  | .typeText => true
  | .scroll => true
  | .startScreencast => true
  | .stopScreencast => true
  | .frameAck => false

/-!
## Helper lemmas
-/

/-- The forwarded timestamps ascend from the state's last-accepted timestamp
in steps of at least the minimum interval. -/
theorem runThrottle_chain (st : ThrottleState) (ts : List Int) :
    List.Chain (fun a b => minFrameInterval ≤ b - a) st.lastFrame (runThrottle st ts) := by
  induction ts generalizing st with
  | nil => exact List.Chain.nil
  | cons t ts ih =>
    by_cases h : t - st.lastFrame < minFrameInterval
    · simpa [runThrottle, throttleStep, h] using ih st
    · have h' : minFrameInterval ≤ t - st.lastFrame := le_of_not_lt h
      have hc : List.Chain (fun a b => minFrameInterval ≤ b - a) t (runThrottle ⟨t⟩ ts) :=
        ih ⟨t⟩
      simp only [runThrottle, throttleStep, if_neg h]
      exact List.Chain.cons h' hc

theorem broadcastLoop_attempted (fails : Nat → Bool) (cs : List Nat) (reg : Finset Nat) :
    (broadcastLoop fails cs reg).attempted = cs := by
  induction cs generalizing reg with
  | nil => rfl
  | cons c cs ih => cases hf : fails c <;> simp [broadcastLoop, hf, ih]

theorem broadcastLoop_received (fails : Nat → Bool) (cs : List Nat) (reg : Finset Nat) :
    (broadcastLoop fails cs reg).received = cs.filter (fun c => !fails c) := by
  induction cs generalizing reg with
  | nil => rfl
  | cons c cs ih => cases hf : fails c <;> simp [broadcastLoop, hf, ih, List.filter_cons]

theorem broadcastLoop_removed (fails : Nat → Bool) (cs : List Nat) (reg : Finset Nat) :
    (broadcastLoop fails cs reg).removed = cs.filter (fun c => fails c) := by
  induction cs generalizing reg with
  | nil => rfl
  | cons c cs ih => cases hf : fails c <;> simp [broadcastLoop, hf, ih, List.filter_cons]

theorem broadcastLoop_closed (fails : Nat → Bool) (cs : List Nat) (reg : Finset Nat) :
    (broadcastLoop fails cs reg).closed = (broadcastLoop fails cs reg).removed := by
  induction cs generalizing reg with
  | nil => rfl
  | cons c cs ih => cases hf : fails c <;> simp [broadcastLoop, hf, ih]

theorem broadcastLoop_mem_registry (fails : Nat → Bool) (cs : List Nat) (reg : Finset Nat)
    (x : Nat) :
    x ∈ (broadcastLoop fails cs reg).registry ↔
      x ∈ reg ∧ ¬(fails x = true ∧ x ∈ cs) := by
  induction cs generalizing reg with
  | nil => simp [broadcastLoop]
  | cons c cs ih =>
    cases hf : fails c with
    | false =>
      by_cases hx : x = c
      · subst hx
        simp [broadcastLoop, hf, ih, hf]
      · simp [broadcastLoop, hf, ih, hx]
    | true =>
      by_cases hx : x = c
      · subst hx
        simp [broadcastLoop, hf, ih, hf]
      · simp [broadcastLoop, hf, ih, Finset.mem_erase, hx]

theorem broadcast_registry_filter (fails : Nat → Bool) (reg : Finset Nat) :
    (broadcast fails reg).registry = reg.filter (fun c => fails c = false) := by
  ext x
  rw [broadcast, broadcastLoop_mem_registry]
  simp only [registrySnapshot, Finset.mem_sort, Finset.mem_filter]
  by_cases hx : x ∈ reg <;> cases hf : fails x <;> simp [hx, hf]

theorem serverClose_components (st : CloseState) :
    (serverClose st).2 = none ∧
    (serverClose st).1.clients = st.clients ∧
    (serverClose st).1.closedConns = st.closedConns ∪ st.clients ∧
    (serverClose st).1.sessionReleased = true ∧
    (serverClose st).1.sessionReleaseCount =
      (if st.sessionReleased then st.sessionReleaseCount else st.sessionReleaseCount + 1) := by
  cases hr : st.sessionReleased <;> simp [serverClose, chromeClose, hr]

theorem serverClose_stable (st : CloseState) (hrel : st.sessionReleased = true)
    (hcc : st.clients ⊆ st.closedConns) : (serverClose st).1 = st := by
  have hu : st.closedConns ∪ st.clients = st.closedConns := Finset.union_eq_left.mpr hcc
  obtain ⟨cl, cc, rel, k⟩ := st
  simp only at hrel hu
  subst hrel
  simp [serverClose, chromeClose, hu]

theorem serverCloseIter_stable (n : Nat) (st : CloseState)
    (hrel : st.sessionReleased = true) (hcc : st.clients ⊆ st.closedConns) :
    serverCloseIter n st = st := by
  induction n with
  | zero => rfl
  | succ n ih =>
    show serverCloseIter n (serverClose st).1 = st
    rw [serverClose_stable st hrel hcc]
    exact ih

/-!
## Claim theorems
-/

/-- C1.  A raw frame delivered at time `now` is forwarded if and only if at
least `minFrameInterval` has elapsed since the last forwarded frame; the
last-accepted timestamp is left unchanged on drop and set to `now` on
forward; and over any delivery sequence no two consecutively forwarded
frames are closer than `minFrameInterval`. -/
theorem throttle_forward_iff_elapsed_and_min_gap (st : ThrottleState) (now : Int)
    (ts : List Int) :
    ((throttleStep st now).1 = true ↔ minFrameInterval ≤ now - st.lastFrame) ∧
    ((throttleStep st now).1 = false → (throttleStep st now).2 = st) ∧
    ((throttleStep st now).1 = true → (throttleStep st now).2.lastFrame = now) ∧
    List.Chain' (fun a b => minFrameInterval ≤ b - a) (runThrottle st ts) := by
  refine ⟨?_, ?_, ?_, ?_⟩
  · constructor
    · intro ht
      by_cases h : now - st.lastFrame < minFrameInterval
      · simp [throttleStep, h] at ht
      · omega
    · intro hle
      have h : ¬(now - st.lastFrame < minFrameInterval) := not_lt.mpr hle
      simp [throttleStep, h]
  · by_cases h : now - st.lastFrame < minFrameInterval <;> simp [throttleStep, h]
  · by_cases h : now - st.lastFrame < minFrameInterval <;> simp [throttleStep, h]
  · exact List.Chain'.tail
      (show List.Chain' _ (st.lastFrame :: runThrottle st ts) from runThrottle_chain st ts)

/-- Witness for C1 at concrete inputs. -/
theorem throttle_forward_iff_elapsed_and_min_gap_witness :
    (throttleStep ⟨0⟩ 100).1 = true ∧
    (throttleStep ⟨100⟩ 120).2 = ⟨100⟩ ∧
    List.Chain' (fun a b => minFrameInterval ≤ b - a) (runThrottle ⟨0⟩ [40, 60, 81]) := by
  refine ⟨?_, ?_, (throttle_forward_iff_elapsed_and_min_gap ⟨0⟩ 0 [40, 60, 81]).2.2.2⟩
  · exact (throttle_forward_iff_elapsed_and_min_gap ⟨0⟩ 100 []).1.mpr (by decide)
  · exact (throttle_forward_iff_elapsed_and_min_gap ⟨100⟩ 120 []).2.1 (by decide)

/-- C10.  `Server.lastFrame` starts at the zero `time.Time`, so the very
first raw frame is forwarded (and stamps the state) whenever its delivery
time is at least `minFrameInterval` past the zero time — which every real
`time.Now()` is. -/
theorem first_frame_forwarded_from_zero_time (now : Int)
    (h : minFrameInterval ≤ now) :
    (throttleStep initialThrottle now).1 = true ∧
    (throttleStep initialThrottle now).2.lastFrame = now := by
  have h' : ¬(now - initialThrottle.lastFrame < minFrameInterval) := by
    simp only [initialThrottle]
    omega
  simp [throttleStep, h']

/-- Witness for C10 at a concrete delivery time. -/
theorem first_frame_forwarded_from_zero_time_witness :
    minFrameInterval ≤ 1000 ∧ (throttleStep initialThrottle 1000).1 = true :=
  ⟨by decide, (first_frame_forwarded_from_zero_time 1000 (by decide)).1⟩

/-- C2.  A broadcast attempts a send to every connection of the snapshot;
exactly the failing connections are removed from the registry and closed;
the surviving registry is the snapshot minus the failures; and a subsequent
broadcast attempts delivery exactly to those survivors. -/
theorem broadcast_isolates_send_failures (fails g : Nat → Bool) (reg : Finset Nat) :
    (broadcast fails reg).attempted = registrySnapshot reg ∧
    (broadcast fails reg).removed = (registrySnapshot reg).filter (fun c => fails c) ∧
    (broadcast fails reg).closed = (broadcast fails reg).removed ∧
    (broadcast fails reg).received = (registrySnapshot reg).filter (fun c => !fails c) ∧
    (broadcast fails reg).registry = reg.filter (fun c => fails c = false) ∧
    (broadcast g (broadcast fails reg).registry).attempted =
      registrySnapshot (reg.filter (fun c => fails c = false)) := by
  refine ⟨broadcastLoop_attempted _ _ _, broadcastLoop_removed _ _ _,
    broadcastLoop_closed _ _ _, broadcastLoop_received _ _ _,
    broadcast_registry_filter _ _, ?_⟩
  rw [broadcast_registry_filter]
  exact broadcastLoop_attempted _ _ _

/-- C6.  A forwarded frame is marshalled exactly once into
`\x7b"type":"frame","data":<base64>\x7d` and every connection of the
snapshot is sent that identical message; with an empty snapshot nothing is
encoded and nothing is sent. -/
theorem frame_encoded_once_broadcast_identical (data : List Nat) (clients : List Nat) :
    (clients = [] → onFrameEncode data clients = ⟨0, []⟩) ∧
    (clients ≠ [] →
      (onFrameEncode data clients).encodeCount = 1 ∧
      (onFrameEncode data clients).sends =
        clients.map (fun c => (c, frameMessageJSON data)) ∧
      ∀ p ∈ (onFrameEncode data clients).sends, p.2 = frameMessageJSON data) := by
  constructor
  · intro h
    subst h
    rfl
  · intro h
    have hl : ¬clients.length = 0 := by
      simpa [List.length_eq_zero] using h
    refine ⟨by simp [onFrameEncode, hl], by simp [onFrameEncode, hl], ?_⟩
    intro p hp
    simp only [onFrameEncode, if_neg hl, List.mem_map] at hp
    obtain ⟨c, _, rfl⟩ := hp
    rfl

/-- Witness for C6: one frame, snapshots `[]` and `[5, 7]`. -/
theorem frame_encoded_once_broadcast_identical_witness :
    onFrameEncode [1, 2, 3] [] = ⟨0, []⟩ ∧
    (onFrameEncode [1, 2, 3] [5, 7]).encodeCount = 1 ∧
    (onFrameEncode [1, 2, 3] [5, 7]).sends =
      [(5, frameMessageJSON [1, 2, 3]), (7, frameMessageJSON [1, 2, 3])] := by
  refine ⟨(frame_encoded_once_broadcast_identical [1, 2, 3] []).1 rfl, ?_, ?_⟩
  · exact ((frame_encoded_once_broadcast_identical [1, 2, 3] [5, 7]).2 (by simp)).1
  · have h := ((frame_encoded_once_broadcast_identical [1, 2, 3] [5, 7]).2 (by simp)).2.1
    simpa using h

/-- C5.  Button codes translate 1 to the middle (auxiliary) button, 2 to the
right (secondary) button and every other code — 0 included — to the left
(primary) button; a pointer-down/click event becomes exactly one
press-then-release pair at `(x, y)` with that button and click count 1; an
event whose type tag is not recognised produces no session command. -/
theorem input_translation_total (e : InputEvent) (code : Int) :
    chromeButton (buttonName 1) = MouseButton.middle ∧
    chromeButton (buttonName 2) = MouseButton.right ∧
    (code ≠ 1 → code ≠ 2 → chromeButton (buttonName code) = MouseButton.left) ∧
    ((e.type = "mousedown" ∨ e.type = "click") →
      handleInput e =
        [SessionCommand.mousePress e.x e.y (chromeButton (buttonName e.button)) 1,
         SessionCommand.mouseRelease e.x e.y (chromeButton (buttonName e.button)) 1]) ∧
    (e.type ∉ recognisedTags → handleInput e = []) := by
  refine ⟨by decide, by decide, ?_, ?_, ?_⟩
  · intro h1 h2
    simp [buttonName, chromeButton, h1, h2]
  · rintro (h | h) <;> simp [handleInput, h, mouseClickCommands]
  · intro h
    simp only [recognisedTags, List.mem_cons, List.not_mem_nil, or_false, not_or] at h
    obtain ⟨h1, h2, h3, h4, h5, h6⟩ := h
    simp [handleInput, h1, h2, h3, h4, h5, h6]

/-- Witness for C5: a secondary-button mousedown at (10, 20), an unknown
code 5, and an unrecognised tag. -/
theorem input_translation_total_witness :
    handleInput ⟨"mousedown", 10, 20, 2, "", "", 0, 0⟩ =
      [SessionCommand.mousePress 10 20 MouseButton.right 1,
       SessionCommand.mouseRelease 10 20 MouseButton.right 1] ∧
    chromeButton (buttonName 5) = MouseButton.left ∧
    handleInput ⟨"bogus", 0, 0, 0, "", "", 0, 0⟩ = [] := by
  refine ⟨?_, ?_, ?_⟩
  · have h := (input_translation_total ⟨"mousedown", 10, 20, 2, "", "", 0, 0⟩ 5).2.2.2.1
      (Or.inl rfl)
    simpa [buttonName, chromeButton] using h
  · exact (input_translation_total ⟨"mousedown", 10, 20, 2, "", "", 0, 0⟩ 5).2.2.1
      (by decide) (by decide)
  · exact (input_translation_total ⟨"bogus", 0, 0, 0, "", "", 0, 0⟩ 5).2.2.2.2 (by decide)

/-- C9.  An inbound message that fails to parse issues no session command
and the read loop continues: inserting a malformed message anywhere in a
message sequence changes neither the commands issued nor whether the loop
ever breaks (breaking being the only path to the deferred
detach-and-close). -/
theorem malformed_input_discarded_loop_continues (pre post : List InMsg) :
    loopStep InMsg.malformed = ([], true) ∧
    runLoop (pre ++ InMsg.malformed :: post) = runLoop (pre ++ post) ∧
    loopBreaks (pre ++ InMsg.malformed :: post) = loopBreaks (pre ++ post) := by
  refine ⟨rfl, ?_, ?_⟩
  · induction pre with
    | nil => simp [runLoop, loopStep]
    | cons m pre ih =>
      cases m with
      | readError => simp [runLoop, loopStep]
      | malformed => simpa [runLoop, loopStep] using ih
      | parsed e => simpa [runLoop, loopStep] using ih
  · induction pre with
    | nil => simp [loopBreaks, loopStep]
    | cons m pre ih =>
      cases m with
      | readError => simp [loopBreaks, loopStep]
      | malformed => simpa [loopBreaks, loopStep] using ih
      | parsed e => simpa [loopBreaks, loopStep] using ih

/-- C4 counterexample.  Attaching a viewer while streaming is stopped does
not issue a start-streaming command and does not make streaming active:
`Server.handleWebSocket` only inserts the connection into the client map. -/
theorem attach_start_claim_cex :
    (attachViewer ⟨∅, false⟩ 1).2 = [] ∧
    (attachViewer ⟨∅, false⟩ 1).1.screencasting = false :=
  ⟨rfl, rfl⟩

/-- C4 amended.  Attaching a viewer only registers the connection: it issues
no session command at all and leaves the streaming state unchanged; the
start-streaming command is issued (unconditionally) only by the explicit
`/start-stream` operation. -/
theorem attach_only_registers (st : ServerState) (conn : Nat) :
    (attachViewer st conn).2 = [] ∧
    (attachViewer st conn).1.screencasting = st.screencasting ∧
    (attachViewer st conn).1.clients = insert conn st.clients ∧
    (startStreamOp st).2 = [SessionCommand.startScreencast] ∧
    (startStreamOp st).1.screencasting = true :=
  ⟨rfl, rfl, rfl, rfl, rfl⟩

/-- C7.  Detaching a viewer — the last one included — only shrinks the
connection set: the streaming flag is untouched and no session command (in
particular no stop-streaming command) is issued. -/
theorem detach_leaves_streaming_unchanged (st : ServerState) (conn : Nat) :
    (detachViewer st conn).1.clients = st.clients.erase conn ∧
    (detachViewer st conn).1.screencasting = st.screencasting ∧
    (detachViewer st conn).2 = [] :=
  ⟨rfl, rfl, rfl⟩

/-- C8.  `Server.Close` always returns no error, a second call leaves the
state of the first call unchanged (no resource is released twice), and over
any positive number of calls from a fresh server the browser session is
released exactly once, with the client transports closed exactly the once. -/
theorem close_idempotent_single_release (st : CloseState) (clients closed : Finset Nat)
    (n : Nat) (h : 1 ≤ n) :
    (serverClose st).2 = none ∧
    (serverClose (serverClose st).1).2 = none ∧
    (serverClose (serverClose st).1).1 = (serverClose st).1 ∧
    (serverCloseIter n ⟨clients, closed, false, 0⟩).sessionReleaseCount = 1 ∧
    (serverCloseIter n ⟨clients, closed, false, 0⟩).closedConns = closed ∪ clients := by
  obtain ⟨hnone, hcl, hcc, hrel, _⟩ := serverClose_components st
  obtain ⟨hnone', _, _, _, _⟩ := serverClose_components (serverClose st).1
  have hsub : (serverClose st).1.clients ⊆ (serverClose st).1.closedConns := by
    rw [hcl, hcc]
    exact Finset.subset_union_right
  have hstable := serverClose_stable (serverClose st).1 hrel hsub
  obtain ⟨m, rfl⟩ : ∃ m, n = m + 1 := ⟨n - 1, (Nat.succ_pred_eq_of_pos h).symm⟩
  have hfirst : (serverClose ⟨clients, closed, false, 0⟩).1 =
      ⟨clients, closed ∪ clients, true, 1⟩ := by
    simp [serverClose, chromeClose]
  have hiter : serverCloseIter (m + 1) ⟨clients, closed, false, 0⟩ =
      (⟨clients, closed ∪ clients, true, 1⟩ : CloseState) := by
    show serverCloseIter m (serverClose ⟨clients, closed, false, 0⟩).1 = _
    rw [hfirst]
    exact serverCloseIter_stable m _ rfl Finset.subset_union_right
  exact ⟨hnone, hnone', hstable, by rw [hiter], by rw [hiter]⟩

/-- Witness for C8: two close calls on a server with clients 1 and 2. -/
theorem close_idempotent_single_release_witness :
    (serverClose ⟨{1, 2}, ∅, false, 0⟩).2 = none ∧
    (serverCloseIter 2 ⟨{1, 2}, ∅, false, 0⟩).sessionReleaseCount = 1 := by
  obtain ⟨h1, _, _, h4, _⟩ :=
    close_idempotent_single_release ⟨{1, 2}, ∅, false, 0⟩ {1, 2} ∅ 2 (by decide)
  exact ⟨h1, h4⟩

/-- C3 counterexample.  Not every session command is issued under the
session mutex: the screencast-frame acknowledgement goroutine inside
`Chrome.StartScreencast` calls into the session without holding `c.mu`. -/
theorem session_lock_claim_cex :
    holdsSessionMutex SessionSite.frameAck = false ∧
    ¬(∀ s : SessionSite, holdsSessionMutex s = true) := by
  refine ⟨rfl, fun h => ?_⟩
  exact absurd (h SessionSite.frameAck) (by decide)

/-- C3 amended.  Every command-issuing site of the chrome wrapper except the
per-frame acknowledgement holds the session mutex while it runs; the
acknowledgement alone is issued by a fire-and-forget goroutine outside the
mutual-exclusion region. -/
theorem session_lock_except_frame_ack (s : SessionSite) :
    (s ≠ SessionSite.frameAck → holdsSessionMutex s = true) ∧
    holdsSessionMutex SessionSite.frameAck = false := by
  refine ⟨fun h => ?_, rfl⟩
  cases s <;> first | rfl | exact absurd rfl h

/-- Witness for C3's amended statement at a concrete locked site. -/
theorem session_lock_except_frame_ack_witness :
    holdsSessionMutex SessionSite.navigate = true :=
  (session_lock_except_frame_ack SessionSite.navigate).1 (by decide)
